import Mathlib

/-!
Verification development for generate_ics.py (sports-calendar).

The script is embedded shallowly:
  * JSON fields that may be absent are `Option String`; Python truthiness
    (None and "" are falsy) is modelled by `pyTruthyS`, and Python `a or b`
    by `pyOrS` / `pyOrStr`.
  * A Python datetime is modelled through the isomorphism with the pair
    (wall-clock seconds since the Unix epoch, utcoffset in minutes); adding a
    timedelta is wall-clock addition with the offset unchanged, and
    astimezone(utc) subtracts the offset.
  * The permissive dateutil parser and the pytz fallback zone are external
    collaborators; they enter as explicit fields of `Config` (the parser as a
    function from the raw text to a parsed value, the zone as a map from
    wall-clock seconds to the utcoffset pytz.localize would attach).
  * datetime.utcnow() is ambient state; the main loop is parameterised by a
    clock indexed by the number of render attempts made so far.
  * Exceptions are `Except String`; the per-event and per-team `try/except`
    blocks become the corresponding match expressions in the loop bodies.
-/

namespace SportsCalendar

/-- Python truthiness of an optional string field: None and "" are falsy. -/
def pyTruthyS : Option String → Bool
  | none => false
  | some s => if s = "" then false else true

/-- Python `a or b` for two optional string fields: `a` when truthy, else `b`. -/
def pyOrS (a b : Option String) : Option String :=
  if pyTruthyS a then a else b

/-- Python `a or d` where the fallback is a plain string literal. -/
def pyOrStr (a : Option String) (d : String) : String :=
  if pyTruthyS a then a.getD "" else d

/-- Interpolation of a possibly missing field into an f-string: None prints as "None". -/
def pyStr : Option String → String
  | none => "None"
  | some s => s

/-- Python str.replace(" ", "_"): single-character replacement is a character map. -/
def pyReplaceSpace (s : String) : String :=
  ⟨s.data.map (fun ch => if ch = ' ' then '_' else ch)⟩

/-- Python str.strip(): drop whitespace from both ends. -/
def pyStrip (s : String) : String :=
  ⟨((s.data.dropWhile Char.isWhitespace).reverse.dropWhile Char.isWhitespace).reverse⟩

/-- Python "\n".join(lines). -/
def newlineJoin : List String → String
  | [] => ""
  | [s] => s
  | s :: rest => s ++ "\n" ++ newlineJoin rest

/-- Split a character list at every occurrence of a separator character. -/
def splitChar (c : Char) : List Char → List (List Char)
  | [] => [[]]
  | x :: xs =>
    if x = c then [] :: splitChar c xs
    else
      match splitChar c xs with
      | [] => [[x]]
      | l :: ls => (x :: l) :: ls

/-- The lines of a rendered text block (inverse view of `newlineJoin`). -/
def linesOf (s : String) : List String :=
  (splitChar '\n' s.data).map (fun l => ⟨l⟩)

/-- One raw fixture record as returned by the API; only the fields the script
consumes are modelled, and an absent JSON key is `none`. -/
structure RawEvent where
  strLeague : Option String := none
  idEvent : Option String := none
  id : Option String := none
  dateEvent : Option String := none
  strTime : Option String := none
  strEvent : Option String := none
  strHomeTeam : Option String := none
  strAwayTeam : Option String := none
  strVenue : Option String := none
  strVenueLocation : Option String := none
  deriving DecidableEq

/-- One team configuration object from teams.json. -/
structure Team where
  team_id : String := ""
  name : Option String := none
  duration_minutes : Option Int := none
  sport_emoji : Option String := none
  deriving DecidableEq

/-- A value returned by dateutil parser.parse: the wall-clock reading in seconds
since the Unix epoch together with the optional utcoffset (tzinfo) in minutes. -/
structure ParsedDT where
  wallSeconds : Int
  offsetMinutes : Option Int
  deriving DecidableEq

/-- An aware Python datetime: wall-clock seconds plus a fixed utcoffset in minutes. -/
structure AwareDT where
  wallSeconds : Int
  offsetMinutes : Int
  deriving DecidableEq

/-- Run configuration: the permissive date parser (dateutil), the fallback zone
pytz.timezone(DEFAULT_TZ) modelled as the utcoffset pytz.localize would attach
to a given naive wall-clock reading, and the UID domain suffix ICS_DOMAIN
(default "github.io"). -/
structure Config where
  parse : String → Except String ParsedDT
  tz : Int → Int
  domain : String

/-- The decimal digit character for n % 10. -/
def digitChar (n : Nat) : Char := Char.ofNat (48 + n % 10)

/-- Two-digit zero-padded rendering, as strftime "%m", "%d", "%H", "%M", "%S". -/
def pad2 (n : Nat) : String := ⟨[digitChar (n / 10), digitChar n]⟩

/-- Four-digit rendering of the year, as strftime "%Y" for the years 1000-9999. -/
def fmt4 (n : Nat) : String :=
  ⟨[digitChar (n / 1000), digitChar (n / 100), digitChar (n / 10), digitChar n]⟩

/-- Gregorian civil date (year, month, day) from a count of days since
1970-01-01, by the standard era-based algorithm. -/
def civilFromDays (z : Int) : Int × Nat × Nat :=
  let w := z + 719468
  let era : Int := w / 146097
  let doe : Nat := (w % 146097).toNat
  let yoe : Nat := (doe - doe / 1460 + doe / 36524 - doe / 146096) / 365
  let y : Int := (yoe : Int) + era * 400
  let doy : Nat := doe - (365 * yoe + yoe / 4 - yoe / 100)
  let mp : Nat := (5 * doy + 2) / 153
  let d : Nat := doy - (153 * mp + 2) / 5 + 1
  let m : Nat := if mp < 10 then mp + 3 else mp - 9
  (if m ≤ 2 then y + 1 else y, m, d)

/-- strftime "%Y%m%dT%H%M%SZ" applied to the UTC instant t, given in seconds
since the Unix epoch (faithful on the year range 1000-9999 used in practice). -/
def fmtBasic (t : Int) : String :=
  let sod : Nat := (t % 86400).toNat
  let c := civilFromDays (t / 86400)
  fmt4 c.1.toNat ++ pad2 c.2.1 ++ pad2 c.2.2 ++ "T" ++
    pad2 (sod / 3600) ++ pad2 (sod % 3600 / 60) ++ pad2 (sod % 60) ++ "Z"

/-- The absolute UTC instant of an aware datetime, in seconds since the epoch. -/
def utcInstant (dt : AwareDT) : Int := dt.wallSeconds - dt.offsetMinutes * 60

/-- to_utc_rfc (source lines 23-25): dt.astimezone(pytz.utc).strftime("%Y%m%dT%H%M%SZ"). -/
def to_utc_rfc (dt : AwareDT) : String := fmtBasic (utcInstant dt)

/-- Python dt + timedelta(minutes=m): wall-clock addition, tzinfo unchanged. -/
def addMinutes (dt : AwareDT) (m : Int) : AwareDT :=
  ⟨dt.wallSeconds + m * 60, dt.offsetMinutes⟩

/-- Whether a string has the exact shape YYYYMMDDTHHMMSSZ: sixteen characters,
fourteen decimal digits around a literal T and a final literal Z. -/
def basicShape (s : String) : Bool :=
  match s.data with
  | [y1, y2, y3, y4, m1, m2, d1, d2, t, h1, h2, n1, n2, s1, s2, z] =>
    (y1.isDigit && y2.isDigit && y3.isDigit && y4.isDigit &&
     m1.isDigit && m2.isDigit && d1.isDigit && d2.isDigit &&
     h1.isDigit && h2.isDigit && n1.isDigit && n2.isDigit &&
     s1.isDigit && s2.isDigit) && t == 'T' && z == 'Z'
  | _ => false

/-- uid_for (source lines 27-31): league-eventId@domain with spaces replaced by
underscores in the league name, "league" when the league field is falsy, and the
first truthy of idEvent and id (an f-string prints a missing value as None). -/
def uid_for (domain : String) (event : RawEvent) : String :=
  let league := pyReplaceSpace (pyOrStr event.strLeague "league")
  let eid := pyOrS event.idEvent event.id
  league ++ "-" ++ pyStr eid ++ "@" ++ domain

/-- The raw text handed to the parser in make_dt: the date string, with the time
string appended after a space when the time field is truthy. -/
def rawOf (event : RawEvent) : String :=
  if pyTruthyS event.strTime then
    event.dateEvent.getD "" ++ " " ++ event.strTime.getD ""
  else event.dateEvent.getD ""

/-- make_dt (source lines 33-51): reject a falsy dateEvent, parse the combined
text, and localize a naive result in the fallback zone; an offset-bearing
result keeps its own offset. -/
def make_dt (cfg : Config) (event : RawEvent) : Except String AwareDT :=
  if !pyTruthyS event.dateEvent then .error "Event missing dateEvent"
  else
    match cfg.parse (rawOf event) with
    | .error e => .error e
    | .ok p =>
      match p.offsetMinutes with
      | none => .ok ⟨p.wallSeconds, cfg.tz p.wallSeconds⟩
      | some o => .ok ⟨p.wallSeconds, o⟩

/-- The title expression of build_vevent: strEvent when truthy, else the
concatenation strHomeTeam + " vs " + strAwayTeam, which raises TypeError in
Python when either side is None. -/
def summaryCore (event : RawEvent) : Except String String :=
  if pyTruthyS event.strEvent then .ok (event.strEvent.getD "")
  else
    match event.strHomeTeam, event.strAwayTeam with
    | some h, some a => .ok (h ++ " vs " ++ a)
    | _, _ => .error "TypeError: can only concatenate str to str"

/-- The lines list assembled by build_vevent (source lines 53-76), before the
final newline join; any exception becomes the error case. -/
def vevent_lines (cfg : Config) (now : Int) (event : RawEvent) (team : Team) :
    Except String (List String) :=
  match make_dt cfg event with
  | .error e => .error e
  | .ok dt =>
    let duration : Int := team.duration_minutes.getD 120
    let dtstart := to_utc_rfc dt
    let dtend := to_utc_rfc (addMinutes dt duration)
    let dtstamp := fmtBasic now
    let uid := uid_for cfg.domain event
    match summaryCore event with
    | .error e => .error e
    | .ok core =>
      let summary := pyStrip (team.sport_emoji.getD "" ++ " " ++ core)
      let location := pyOrStr (pyOrS event.strVenue event.strVenueLocation) ""
      let description := pyOrStr event.strLeague ""
      .ok ["BEGIN:VEVENT", "UID:" ++ uid, "DTSTAMP:" ++ dtstamp,
        "DTSTART:" ++ dtstart, "DTEND:" ++ dtend, "SUMMARY:" ++ summary,
        "LOCATION:" ++ location, "DESCRIPTION:" ++ description, "END:VEVENT"]

/-- build_vevent: the joined text block, with `now` the instant utcnow() would
observe during this call. -/
def build_vevent (cfg : Config) (now : Int) (event : RawEvent) (team : Team) :
    Except String String :=
  (vevent_lines cfg now event team).map newlineJoin

/-- PRODID constant from the source. -/
def PRODID : String := "-//My Sports Calendar//EN"

/-- generate_calendar (source lines 78-86): header, blocks, footer joined by
single newlines. -/
def generate_calendar (all_vevents : List String) : String :=
  newlineJoin (["BEGIN:VCALENDAR", "VERSION:2.0", "PRODID:" ++ PRODID,
    "CALSCALE:GREGORIAN"] ++ all_vevents ++ ["END:VCALENDAR"])

/-- The mutable state of main: the seen-uid set, the accumulated blocks in
order, and the number of render attempts made (the clock index). -/
structure RunState where
  seen : List String
  vevents : List String
  tick : Nat
  deriving DecidableEq

/-- State at the start of main: empty seen set, no blocks. -/
def initState : RunState := ⟨[], [], 0⟩

/-- Body of the inner per-event loop of main (source lines 110-119): derive the
uid, skip when already seen, otherwise mark it seen and attempt to render; a
render error skips just this event. -/
def procEvent (cfg : Config) (clock : Nat → Int) (team : Team)
    (st : RunState) (ev : RawEvent) : RunState :=
  let uid := uid_for cfg.domain ev
  if uid ∈ st.seen then st
  else
    match build_vevent cfg (clock st.tick) ev team with
    | .ok s => ⟨uid :: st.seen, st.vevents ++ [s], st.tick + 1⟩
    | .error _ => ⟨uid :: st.seen, st.vevents, st.tick + 1⟩

/-- Body of the outer per-team loop of main (source lines 97-119): a failed
fetch is caught and the team skipped; an empty list contributes nothing. -/
def procTeam (cfg : Config) (clock : Nat → Int) (st : RunState)
    (tf : Team × Except String (List RawEvent)) : RunState :=
  match tf.2 with
  | .error _ => st
  | .ok events => events.foldl (procEvent cfg clock tf.1) st

/-- The whole fetch-and-accumulate phase of main, over the configured teams
paired with their fetch outcomes. -/
def processTeams (cfg : Config) (clock : Nat → Int)
    (teams : List (Team × Except String (List RawEvent))) : RunState :=
  teams.foldl (procTeam cfg clock) initState

/-- The document main writes: generate_calendar over the accumulated blocks. -/
def mainCalendar (cfg : Config) (clock : Nat → Int)
    (teams : List (Team × Except String (List RawEvent))) : String :=
  generate_calendar (processTeams cfg clock teams).vevents

/-- The flattened fetch-order stream of (team, event) pairs: teams in configured
order, each team's returned events in API order, failed fetches contributing
nothing. -/
def eventStream (teams : List (Team × Except String (List RawEvent))) :
    List (Team × RawEvent) :=
  teams.foldr (fun tf acc =>
    (match tf.2 with
     | .error _ => []
     | .ok events => events.map (fun e => (tf.1, e))) ++ acc) []

/-- The per-event step viewed over the flattened stream. -/
def stepP (cfg : Config) (clock : Nat → Int) (st : RunState)
    (p : Team × RawEvent) : RunState :=
  procEvent cfg clock p.1 st p.2

/-- Folding the per-event step over a stream of (team, event) pairs. -/
def streamFold (cfg : Config) (clock : Nat → Int) (st : RunState)
    (l : List (Team × RawEvent)) : RunState :=
  l.foldl (stepP cfg clock) st

/-- Modelled from the spec wording of claim C1: a parsed value carrying no
offset is interpreted as wall-clock time in the fallback zone and converted to
UTC; a parsed value carrying an offset is converted to UTC directly. -/
def specNormalizeInstant (tz : Int → Int) (p : ParsedDT) : Int :=
  match p.offsetMinutes with
  | none => p.wallSeconds - tz p.wallSeconds * 60
  | some o => p.wallSeconds - o * 60

/-- The uid contract exactly as claim C3 words it: the fallback "league" is
used only when the league field is absent, and the event identifier is the
first present of the two candidate fields. -/
def uid_claimC3 (domain : String) (event : RawEvent) : String :=
  let league :=
    match event.strLeague with
    | some s => pyReplaceSpace s
    | none => "league"
  let eid :=
    match event.idEvent with
    | some s => s
    | none =>
      match event.id with
      | some s => s
      | none => "None"
  league ++ "-" ++ eid ++ "@" ++ domain

/-- The uid contract as amended: "league" is used when the league field is
absent or empty, and the event identifier is the first of the two candidate
fields that is present and non-empty ("None" when neither is). -/
def uid_amendedC3 (domain : String) (event : RawEvent) : String :=
  let league :=
    match event.strLeague with
    | some s => if s = "" then "league" else pyReplaceSpace s
    | none => "league"
  let eid :=
    match event.idEvent with
    | some s =>
      if s = "" then
        match event.id with
        | some r => r
        | none => "None"
      else s
    | none =>
      match event.id with
      | some r => r
      | none => "None"
  league ++ "-" ++ eid ++ "@" ++ domain

/-- Provenance of one rendered block: some event and team rendered to it
successfully at some clock index, and the event derives the given uid. -/
def BlockOf (cfg : Config) (clock : Nat → Int) (u s : String) : Prop :=
  ∃ ev team i, uid_for cfg.domain ev = u ∧
    build_vevent cfg (clock i) ev team = .ok s

/-- Loop invariant: the accumulated blocks are, in order, renderings of events
with pairwise distinct uids, all of which have been marked seen. -/
def Provenanced (cfg : Config) (clock : Nat → Int) (st : RunState) : Prop :=
  ∃ us, us.Nodup ∧ (∀ u ∈ us, u ∈ st.seen) ∧
    List.Forall₂ (BlockOf cfg clock) us st.vevents

/-- Loop invariant for claim C10: the uid u is already marked seen while no
accumulated block stems from an event deriving u. -/
def AvoidState (cfg : Config) (clock : Nat → Int) (u : String)
    (st : RunState) : Prop :=
  u ∈ st.seen ∧ ∃ us, us.Nodup ∧ (∀ v ∈ us, v ∈ st.seen) ∧ u ∉ us ∧
    List.Forall₂ (BlockOf cfg clock) us st.vevents

/-- A parser instance for concrete runs: everything parses to the naive epoch. -/
def parse0 : String → Except String ParsedDT := fun _ => .ok ⟨0, none⟩

/-- A concrete configuration: the parser above, the UTC fallback zone, and the
default domain suffix. -/
def cfg0 : Config := ⟨parse0, fun _ => 0, "github.io"⟩

/-- A constant utcnow clock. -/
def clk0 : Nat → Int := fun _ => 0

/-- A utcnow clock that advances one second per render attempt. -/
def clkId : Nat → Int := fun i => (i : Int)

/-- A team with every optional setting left at its default. -/
def t0 : Team := {}

/-- A well-formed fixture with identifier 1. -/
def eA : RawEvent := { dateEvent := some "d", idEvent := some "1", strEvent := some "E" }

/-- A well-formed fixture with identifier 2. -/
def eB : RawEvent := { dateEvent := some "d", idEvent := some "2", strEvent := some "F" }

/-- A fixture with identifier 5 but no date field. -/
def eMid : RawEvent := { idEvent := some "5", strEvent := some "G" }

/-- A fixture with identifier 7 and no date field. -/
def eNoDate7 : RawEvent := { idEvent := some "7", strEvent := some "G" }

/-- A well-formed fixture with identifier 7. -/
def eOk7 : RawEvent := { dateEvent := some "d", idEvent := some "7", strEvent := some "H" }

/-- A fixture lacking both identifier fields. -/
def eNoIds : RawEvent := { dateEvent := some "d", strEvent := some "E" }

/-- A fixture whose summary expression raises: no title and no home team. -/
def eSumBad : RawEvent :=
  { dateEvent := some "d", idEvent := some "1", strAwayTeam := some "X" }

/-- A fixture whose league field is present but empty. -/
def eLeagueEmpty : RawEvent := { strLeague := some "", idEvent := some "123" }

/-- A fixture whose first identifier field is present but empty while the
second one carries a value. -/
def eIdEmpty : RawEvent := { idEvent := some "", id := some "5" }

deriving instance DecidableEq for Except

lemma isDigit_ofNat (m : Nat) (h : m < 10) : (Char.ofNat (48 + m)).isDigit = true := by
  interval_cases m <;> decide

lemma digitChar_isDigit (n : Nat) : (digitChar n).isDigit = true :=
  isDigit_ofNat (n % 10) (Nat.mod_lt _ (by norm_num))

lemma basicShape_concat (a b c h i s : Nat) :
    basicShape (fmt4 a ++ pad2 b ++ pad2 c ++ "T" ++ pad2 h ++ pad2 i ++ pad2 s ++ "Z")
      = true := by
  show basicShape ⟨[digitChar (a / 1000), digitChar (a / 100), digitChar (a / 10),
      digitChar a, digitChar (b / 10), digitChar b, digitChar (c / 10), digitChar c, 'T',
      digitChar (h / 10), digitChar h, digitChar (i / 10), digitChar i,
      digitChar (s / 10), digitChar s, 'Z']⟩ = true
  simp [basicShape, digitChar_isDigit]

lemma basicShape_fmtBasic (t : Int) : basicShape (fmtBasic t) = true :=
  basicShape_concat _ _ _ _ _ _

lemma forall2_snoc {α β : Type} {R : α → β → Prop} {l1 : List α} {l2 : List β}
    (h : List.Forall₂ R l1 l2) {a : α} {b : β} (hab : R a b) :
    List.Forall₂ R (l1 ++ [a]) (l2 ++ [b]) := by
  induction h with
  | nil => exact List.Forall₂.cons hab List.Forall₂.nil
  | cons hxy hrest ih => exact List.Forall₂.cons hxy ih

lemma nodup_snoc {α : Type} {l : List α} (h : l.Nodup) {a : α} (ha : a ∉ l) :
    (l ++ [a]).Nodup := by
  refine h.append (List.nodup_singleton _) ?_
  intro x hx hx2
  rw [List.mem_singleton] at hx2
  subst hx2
  exact ha hx

section Loop

variable (cfg : Config) (clock : Nat → Int)

lemma procEvent_skip (team : Team) (st : RunState) (ev : RawEvent)
    (h : uid_for cfg.domain ev ∈ st.seen) : procEvent cfg clock team st ev = st := by
  simp [procEvent, h]

lemma procEvent_seen_mono (team : Team) (st : RunState) (ev : RawEvent) :
    st.seen ⊆ (procEvent cfg clock team st ev).seen := by
  intro a ha
  by_cases hseen : uid_for cfg.domain ev ∈ st.seen
  · rw [procEvent_skip cfg clock team st ev hseen]
    exact ha
  · unfold procEvent
    simp only [hseen, if_false]
    cases hb : build_vevent cfg (clock st.tick) ev team <;>
      exact List.mem_cons_of_mem _ ha

lemma procEvent_uid_seen (team : Team) (st : RunState) (ev : RawEvent) :
    uid_for cfg.domain ev ∈ (procEvent cfg clock team st ev).seen := by
  by_cases hseen : uid_for cfg.domain ev ∈ st.seen
  · rw [procEvent_skip cfg clock team st ev hseen]
    exact hseen
  · unfold procEvent
    simp only [hseen, if_false]
    cases hb : build_vevent cfg (clock st.tick) ev team <;>
      exact List.mem_cons_self _ _

lemma procEvent_seen_sub (team : Team) (st : RunState) (ev : RawEvent) :
    (procEvent cfg clock team st ev).seen ⊆ uid_for cfg.domain ev :: st.seen := by
  by_cases hseen : uid_for cfg.domain ev ∈ st.seen
  · rw [procEvent_skip cfg clock team st ev hseen]
    exact fun a ha => List.mem_cons_of_mem _ ha
  · unfold procEvent
    simp only [hseen, if_false]
    cases hb : build_vevent cfg (clock st.tick) ev team <;>
      exact fun a ha => ha

lemma procEvent_vevents_prefix (team : Team) (st : RunState) (ev : RawEvent) :
    ∃ δ, (procEvent cfg clock team st ev).vevents = st.vevents ++ δ := by
  by_cases hseen : uid_for cfg.domain ev ∈ st.seen
  · rw [procEvent_skip cfg clock team st ev hseen]
    exact ⟨[], by simp⟩
  · unfold procEvent
    simp only [hseen, if_false]
    cases hb : build_vevent cfg (clock st.tick) ev team
    · exact ⟨[], by simp⟩
    · exact ⟨_, rfl⟩

lemma streamFold_append (st : RunState) (l1 l2 : List (Team × RawEvent)) :
    streamFold cfg clock st (l1 ++ l2) =
      streamFold cfg clock (streamFold cfg clock st l1) l2 := by
  simp [streamFold, List.foldl_append]

lemma streamFold_cons (st : RunState) (p : Team × RawEvent)
    (l : List (Team × RawEvent)) :
    streamFold cfg clock st (p :: l) =
      streamFold cfg clock (stepP cfg clock st p) l := rfl

lemma streamFold_seen_mono (l : List (Team × RawEvent)) (st : RunState) :
    st.seen ⊆ (streamFold cfg clock st l).seen := by
  induction l generalizing st with
  | nil => exact fun a ha => ha
  | cons p rest ih =>
    intro a ha
    exact ih (stepP cfg clock st p) (procEvent_seen_mono cfg clock p.1 st p.2 ha)

lemma streamFold_uid_seen (l : List (Team × RawEvent)) (st : RunState) :
    ∀ p ∈ l, uid_for cfg.domain p.2 ∈ (streamFold cfg clock st l).seen := by
  induction l generalizing st with
  | nil => intro p hp; cases hp
  | cons q rest ih =>
    intro p hp
    rcases List.mem_cons.mp hp with h | h
    · subst h
      exact streamFold_seen_mono cfg clock rest (stepP cfg clock st p)
        (procEvent_uid_seen cfg clock p.1 st p.2)
    · exact ih (stepP cfg clock st q) p h

lemma streamFold_seen_sub (l : List (Team × RawEvent)) (st : RunState) :
    (streamFold cfg clock st l).seen ⊆
      st.seen ++ l.map (fun p => uid_for cfg.domain p.2) := by
  induction l generalizing st with
  | nil => simp [streamFold]
  | cons p rest ih =>
    intro a ha
    have h1 := ih (stepP cfg clock st p) ha
    rcases List.mem_append.mp h1 with h | h
    · have h2 := procEvent_seen_sub cfg clock p.1 st p.2 h
      rcases List.mem_cons.mp h2 with h3 | h3
      · subst h3
        exact List.mem_append.mpr (Or.inr (by simp))
      · exact List.mem_append.mpr (Or.inl h3)
    · exact List.mem_append.mpr (Or.inr (by simp [h]))

lemma streamFold_vevents_prefix (l : List (Team × RawEvent)) (st : RunState) :
    ∃ δ, (streamFold cfg clock st l).vevents = st.vevents ++ δ := by
  induction l generalizing st with
  | nil => exact ⟨[], by simp [streamFold]⟩
  | cons p rest ih =>
    obtain ⟨δ1, h1⟩ := procEvent_vevents_prefix cfg clock p.1 st p.2
    obtain ⟨δ2, h2⟩ := ih (stepP cfg clock st p)
    exact ⟨δ1 ++ δ2, by rw [streamFold_cons]; rw [h2]; simp [stepP, h1]⟩

lemma streamFold_mem_vevents (l : List (Team × RawEvent)) (st : RunState) (s : String)
    (hs : s ∈ (streamFold cfg clock st l).vevents) :
    s ∈ st.vevents ∨ ∃ ev team i, build_vevent cfg (clock i) ev team = .ok s := by
  induction l generalizing st with
  | nil => exact Or.inl hs
  | cons p rest ih =>
    rw [streamFold_cons] at hs
    rcases ih (stepP cfg clock st p) hs with h | h
    · by_cases hseen : uid_for cfg.domain p.2 ∈ st.seen
      · rw [stepP, procEvent_skip cfg clock p.1 st p.2 hseen] at h
        exact Or.inl h
      · unfold stepP procEvent at h
        simp only [hseen, if_false] at h
        cases hb : build_vevent cfg (clock st.tick) p.2 p.1 with
        | error m =>
          rw [hb] at h
          exact Or.inl h
        | ok s' =>
          rw [hb] at h
          simp only [List.mem_append, List.mem_singleton] at h
          rcases h with h2 | h2
          · exact Or.inl h2
          · subst h2
            exact Or.inr ⟨p.2, p.1, st.tick, hb⟩
    · exact Or.inr h

lemma procEvent_prov (team : Team) (st : RunState) (ev : RawEvent)
    (h : Provenanced cfg clock st) :
    Provenanced cfg clock (procEvent cfg clock team st ev) := by
  obtain ⟨us, hnd, hsub, hrel⟩ := h
  unfold procEvent
  by_cases hseen : uid_for cfg.domain ev ∈ st.seen
  · simp only [hseen, if_true]
    exact ⟨us, hnd, hsub, hrel⟩
  · simp only [hseen, if_false]
    have hnotin : uid_for cfg.domain ev ∉ us := fun hm => hseen (hsub _ hm)
    cases hb : build_vevent cfg (clock st.tick) ev team with
    | ok s =>
      refine ⟨us ++ [uid_for cfg.domain ev], nodup_snoc hnd hnotin, ?_, ?_⟩
      · intro u hu
        rcases List.mem_append.mp hu with h1 | h1
        · exact List.mem_cons_of_mem _ (hsub _ h1)
        · rw [List.mem_singleton] at h1
          subst h1
          exact List.mem_cons_self _ _
      · exact forall2_snoc hrel ⟨ev, team, st.tick, rfl, hb⟩
    | error e =>
      exact ⟨us, hnd, fun u hu => List.mem_cons_of_mem _ (hsub _ hu), hrel⟩

lemma streamFold_prov (l : List (Team × RawEvent)) (st : RunState)
    (h : Provenanced cfg clock st) :
    Provenanced cfg clock (streamFold cfg clock st l) := by
  induction l generalizing st with
  | nil => exact h
  | cons p rest ih =>
    exact ih (stepP cfg clock st p) (procEvent_prov cfg clock p.1 st p.2 h)

lemma initState_prov : Provenanced cfg clock initState :=
  ⟨[], List.nodup_nil, by simp, List.Forall₂.nil⟩

lemma procEvent_avoid (u : String) (team : Team) (st : RunState) (ev : RawEvent)
    (h : AvoidState cfg clock u st) :
    AvoidState cfg clock u (procEvent cfg clock team st ev) := by
  obtain ⟨huseen, us, hnd, hsub, hnu, hrel⟩ := h
  unfold procEvent
  by_cases hseen : uid_for cfg.domain ev ∈ st.seen
  · simp only [hseen, if_true]
    exact ⟨huseen, us, hnd, hsub, hnu, hrel⟩
  · simp only [hseen, if_false]
    have hneq : uid_for cfg.domain ev ≠ u := fun he => hseen (he ▸ huseen)
    have hnotin : uid_for cfg.domain ev ∉ us := fun hm => hseen (hsub _ hm)
    cases hb : build_vevent cfg (clock st.tick) ev team with
    | ok s =>
      refine ⟨List.mem_cons_of_mem _ huseen, us ++ [uid_for cfg.domain ev],
        nodup_snoc hnd hnotin, ?_, ?_, ?_⟩
      · intro v hv
        rcases List.mem_append.mp hv with h1 | h1
        · exact List.mem_cons_of_mem _ (hsub _ h1)
        · rw [List.mem_singleton] at h1
          subst h1
          exact List.mem_cons_self _ _
      · intro hm
        rcases List.mem_append.mp hm with h1 | h1
        · exact hnu h1
        · rw [List.mem_singleton] at h1
          exact hneq h1.symm
      · exact forall2_snoc hrel ⟨ev, team, st.tick, rfl, hb⟩
    | error e =>
      exact ⟨List.mem_cons_of_mem _ huseen, us, hnd,
        fun v hv => List.mem_cons_of_mem _ (hsub _ hv), hnu, hrel⟩

lemma streamFold_avoid (u : String) (l : List (Team × RawEvent)) (st : RunState)
    (h : AvoidState cfg clock u st) :
    AvoidState cfg clock u (streamFold cfg clock st l) := by
  induction l generalizing st with
  | nil => exact h
  | cons p rest ih =>
    exact ih (stepP cfg clock st p) (procEvent_avoid cfg clock u p.1 st p.2 h)

lemma eventStream_cons (tf : Team × Except String (List RawEvent))
    (rest : List (Team × Except String (List RawEvent))) :
    eventStream (tf :: rest) =
      (match tf.2 with
       | .error _ => []
       | .ok events => events.map (fun e => (tf.1, e))) ++ eventStream rest := rfl

lemma procTeam_eq_stream (st : RunState) (tf : Team × Except String (List RawEvent)) :
    procTeam cfg clock st tf =
      streamFold cfg clock st
        (match tf.2 with
         | .error _ => []
         | .ok events => events.map (fun e => (tf.1, e))) := by
  unfold procTeam
  cases tf.2 with
  | error m => rfl
  | ok events =>
    simp only [streamFold, List.foldl_map]
    rfl

lemma processTeams_eq_stream (teams : List (Team × Except String (List RawEvent))) :
    processTeams cfg clock teams = streamFold cfg clock initState (eventStream teams) := by
  suffices h : ∀ st, teams.foldl (procTeam cfg clock) st =
      streamFold cfg clock st (eventStream teams) from h initState
  induction teams with
  | nil => intro st; rfl
  | cons tf rest ih =>
    intro st
    rw [List.foldl_cons, eventStream_cons, streamFold_append, ← procTeam_eq_stream]
    exact ih (procTeam cfg clock st tf)

end Loop

lemma vevent_lines_dtstamp (cfg : Config) (now : Int) (e : RawEvent) (t : Team)
    (L : List String) (h : vevent_lines cfg now e t = .ok L) :
    L[2]? = some ("DTSTAMP:" ++ fmtBasic now) := by
  unfold vevent_lines at h
  cases hdt : make_dt cfg e with
  | error m => rw [hdt] at h; cases h
  | ok dt =>
    rw [hdt] at h
    simp only at h
    cases hs : summaryCore e with
    | error m => rw [hs] at h; cases h
    | ok core => rw [hs] at h; cases h; rfl

lemma summaryCore_ok_iff (e : RawEvent) :
    (∃ c, summaryCore e = .ok c) ↔
      (pyTruthyS e.strEvent = true ∨ (e.strHomeTeam.isSome ∧ e.strAwayTeam.isSome)) := by
  unfold summaryCore
  by_cases ht : pyTruthyS e.strEvent = true
  · simp [ht]
  · cases hh : e.strHomeTeam <;> cases ha : e.strAwayTeam <;> simp [ht, hh, ha]

/-- C1: for every raw event whose parsed date/time carries no time-zone offset,
make_dt interprets it as wall-clock time in the configured fallback zone and
converts it to UTC; a parsed value already carrying an offset is converted to
UTC directly; and in both cases the rendered DTSTART text to_utc_rfc produces
is that UTC instant in the exact shape YYYYMMDDTHHMMSSZ. -/
theorem claim1_dtstart_utc (cfg : Config) (e : RawEvent) (dt : AwareDT)
    (h : make_dt cfg e = .ok dt) :
    ∃ p, cfg.parse (rawOf e) = .ok p ∧
      utcInstant dt = specNormalizeInstant cfg.tz p ∧
      to_utc_rfc dt = fmtBasic (specNormalizeInstant cfg.tz p) ∧
      basicShape (to_utc_rfc dt) = true := by
  unfold make_dt at h
  by_cases hd : pyTruthyS e.dateEvent
  · simp only [hd, Bool.not_true, Bool.false_eq_true, if_false] at h
    cases hp : cfg.parse (rawOf e) with
    | error m => rw [hp] at h; cases h
    | ok p =>
      rw [hp] at h
      simp only at h
      refine ⟨p, rfl, ?_⟩
      cases ho : p.offsetMinutes with
      | none =>
        rw [ho] at h
        cases h
        exact ⟨by simp [utcInstant, specNormalizeInstant, ho],
          by simp [to_utc_rfc, utcInstant, specNormalizeInstant, ho],
          basicShape_fmtBasic _⟩
      | some o =>
        rw [ho] at h
        cases h
        exact ⟨by simp [utcInstant, specNormalizeInstant, ho],
          by simp [to_utc_rfc, utcInstant, specNormalizeInstant, ho],
          basicShape_fmtBasic _⟩
  · simp only [hd, Bool.not_false, if_true] at h
    cases h

/-- Witness for C1 at a concrete configuration and event. -/
theorem claim1_witness :
    ∃ p, cfg0.parse (rawOf eA) = .ok p ∧
      utcInstant ⟨0, 0⟩ = specNormalizeInstant cfg0.tz p ∧
      to_utc_rfc ⟨0, 0⟩ = fmtBasic (specNormalizeInstant cfg0.tz p) ∧
      basicShape (to_utc_rfc ⟨0, 0⟩) = true :=
  claim1_dtstart_utc cfg0 eA ⟨0, 0⟩ rfl

/-- C2: for every successfully rendered event the DTEND instant minus the
DTSTART instant is the owning team's configured duration_minutes (default 120)
in minutes, and the DTSTART instant is the UTC conversion of the normalized
datetime (wall clock minus its offset). -/
theorem claim2_duration (cfg : Config) (now : Int) (e : RawEvent) (t : Team)
    (L : List String) (h : vevent_lines cfg now e t = .ok L) :
    ∃ dt, make_dt cfg e = .ok dt ∧
      L[3]? = some ("DTSTART:" ++ fmtBasic (utcInstant dt)) ∧
      L[4]? = some ("DTEND:" ++ fmtBasic (utcInstant dt + t.duration_minutes.getD 120 * 60)) := by
  unfold vevent_lines at h
  cases hdt : make_dt cfg e with
  | error m => rw [hdt] at h; cases h
  | ok dt =>
    rw [hdt] at h
    cases hs : summaryCore e with
    | error m =>
      simp only at h
      rw [hs] at h
      cases h
    | ok core =>
      simp only at h
      rw [hs] at h
      cases h
      refine ⟨dt, rfl, ?_, ?_⟩
      · rfl
      · have harith : utcInstant (addMinutes dt (t.duration_minutes.getD 120)) =
            utcInstant dt + t.duration_minutes.getD 120 * 60 := by
          unfold utcInstant addMinutes
          ring
        simp only [to_utc_rfc, harith]
        rfl

/-- Witness for C2 at a concrete rendered event. -/
theorem claim2_witness :
    ∃ dt, make_dt cfg0 eA = .ok dt ∧
      (["BEGIN:VEVENT", "UID:league-1@github.io", "DTSTAMP:19700101T000000Z",
        "DTSTART:19700101T000000Z", "DTEND:19700101T020000Z", "SUMMARY:E",
        "LOCATION:", "DESCRIPTION:", "END:VEVENT"] : List String)[3]? =
        some ("DTSTART:" ++ fmtBasic (utcInstant dt)) ∧
      (["BEGIN:VEVENT", "UID:league-1@github.io", "DTSTAMP:19700101T000000Z",
        "DTSTART:19700101T000000Z", "DTEND:19700101T020000Z", "SUMMARY:E",
        "LOCATION:", "DESCRIPTION:", "END:VEVENT"] : List String)[4]? =
        some ("DTEND:" ++ fmtBasic (utcInstant dt + t0.duration_minutes.getD 120 * 60)) :=
  claim2_duration cfg0 0 eA t0 _ rfl

/-- C3 fails as stated, on both components of the uid: an event whose league
field is present but empty gets the fallback "league" in its uid while the
claim's formula keeps the empty league name; and an event whose first
identifier field is present but empty takes the second field's value while the
claim's first-present rule keeps the empty first one. -/
theorem claim3_counterexample :
    (uid_for "github.io" eLeagueEmpty ≠ uid_claimC3 "github.io" eLeagueEmpty ∧
      uid_for "github.io" eLeagueEmpty = "league-123@github.io" ∧
      uid_claimC3 "github.io" eLeagueEmpty = "-123@github.io") ∧
    (uid_for "github.io" eIdEmpty ≠ uid_claimC3 "github.io" eIdEmpty ∧
      uid_for "github.io" eIdEmpty = "league-5@github.io" ∧
      uid_claimC3 "github.io" eIdEmpty = "league-@github.io") :=
  ⟨⟨by decide, rfl, rfl⟩, ⟨by decide, rfl, rfl⟩⟩

/-- C3 (amended): the uid is league-eventId@domain where the league name (with
spaces replaced by underscores) is used when present and non-empty, else the
literal "league"; the eventId is the first identifier field when it is present
and non-empty, else the second field's value when that field is present (even
when empty), else the literal "None". -/
theorem claim3_amended (domain : String) (event : RawEvent) :
    uid_for domain event = uid_amendedC3 domain event := by
  unfold uid_for uid_amendedC3 pyOrStr pyOrS pyStr pyTruthyS pyReplaceSpace
  cases event.strLeague with
  | none => cases event.idEvent with
    | none => cases event.id <;> simp
    | some s => cases event.id <;> split_ifs <;> simp_all
  | some lg => cases event.idEvent with
    | none => cases event.id <;> split_ifs <;> simp_all
    | some s => cases event.id <;> split_ifs <;> simp_all

/-- C5 fails as stated: an event lacking both identifier fields does not make
uid derivation fail; the uid ends in -None@domain and the event still
contributes a VEVENT block. -/
theorem claim5_counterexample :
    uid_for "github.io" eNoIds = "league-None@github.io" ∧
    (processTeams cfg0 clk0 [(t0, .ok [eNoIds])]).vevents.length = 1 :=
  ⟨rfl, rfl⟩

/-- C5 (amended): when neither candidate identifier field is present, uid
derivation does not fail: it yields a uid of the form league-None@domain, and
the event is processed normally, contributing its rendered VEVENT block. -/
theorem claim5_amended (cfg : Config) (clock : Nat → Int) (e : RawEvent)
    (t : Team) (s : String) (h1 : e.idEvent = none) (h2 : e.id = none)
    (hb : build_vevent cfg (clock 0) e t = .ok s) :
    (∃ league, uid_for cfg.domain e = league ++ "-None@" ++ cfg.domain) ∧
    (processTeams cfg clock [(t, .ok [e])]).vevents = [s] := by
  constructor
  · refine ⟨pyReplaceSpace (pyOrStr e.strLeague "league"), ?_⟩
    unfold uid_for pyOrS
    rw [h1, h2]
    show _ ++ "-" ++ pyStr none ++ "@" ++ cfg.domain = _ ++ "-None@" ++ cfg.domain
    unfold pyStr
    congr 1
    simp only [String.append_assoc]
    congr 1
  · show (procEvent cfg clock t initState e).vevents = [s]
    unfold procEvent initState
    simp only [List.not_mem_nil, if_false, hb, List.nil_append]

/-- Witness for the amended C5 at a concrete identifier-free event. -/
theorem claim5_witness :
    (∃ league, uid_for cfg0.domain eNoIds = league ++ "-None@" ++ cfg0.domain) ∧
    (processTeams cfg0 clk0 [(t0, .ok [eNoIds])]).vevents =
      ["BEGIN:VEVENT\nUID:league-None@github.io\nDTSTAMP:19700101T000000Z\nDTSTART:19700101T000000Z\nDTEND:19700101T020000Z\nSUMMARY:E\nLOCATION:\nDESCRIPTION:\nEND:VEVENT"] :=
  claim5_amended cfg0 clk0 eNoIds t0 _ rfl rfl rfl

/-- C4 fails as stated: two events derive the same uid, the second renders
fine, yet no occurrence at all contributes a VEVENT, because the first bearer
of the uid is marked seen before its rendering fails. -/
theorem claim4_counterexample :
    (processTeams cfg0 clk0 [(t0, .ok [eNoDate7, eOk7])]).vevents = [] ∧
    uid_for cfg0.domain eNoDate7 = uid_for cfg0.domain eOk7 ∧
    (∃ s, build_vevent cfg0 0 eOk7 t0 = .ok s) :=
  ⟨rfl, rfl, ⟨_, rfl⟩⟩

/-- C4 (amended): distinct VEVENT blocks of one run have distinct uids; a
later event deriving an already-derived uid is always dropped (the run equals
the run without it); and the first event bearing a uid contributes its block
whenever its rendering succeeds. -/
theorem claim4_amended (cfg : Config) (clock : Nat → Int)
    (teams : List (Team × Except String (List RawEvent))) :
    (∃ us, us.Nodup ∧
      List.Forall₂ (BlockOf cfg clock) us (processTeams cfg clock teams).vevents) ∧
    (∀ pre x post, eventStream teams = pre ++ x :: post →
      uid_for cfg.domain x.2 ∈ pre.map (fun p => uid_for cfg.domain p.2) →
      processTeams cfg clock teams = streamFold cfg clock initState (pre ++ post)) ∧
    (∀ pre x post s, eventStream teams = pre ++ x :: post →
      uid_for cfg.domain x.2 ∉ pre.map (fun p => uid_for cfg.domain p.2) →
      build_vevent cfg (clock (streamFold cfg clock initState pre).tick) x.2 x.1 = .ok s →
      s ∈ (processTeams cfg clock teams).vevents) := by
  refine ⟨?_, ?_, ?_⟩
  · obtain ⟨us, hnd, hsub, hrel⟩ :=
      streamFold_prov cfg clock (eventStream teams) initState (initState_prov cfg clock)
    refine ⟨us, hnd, ?_⟩
    rw [processTeams_eq_stream]
    exact hrel
  · intro pre x post hdec hmem
    rw [processTeams_eq_stream, hdec, streamFold_append, streamFold_cons,
      streamFold_append]
    congr 1
    obtain ⟨p, hp, hpu⟩ := List.mem_map.mp hmem
    have hseen : uid_for cfg.domain x.2 ∈ (streamFold cfg clock initState pre).seen := by
      rw [← hpu]
      exact streamFold_uid_seen cfg clock pre initState p hp
    exact procEvent_skip cfg clock x.1 _ x.2 hseen
  · intro pre x post s hdec hnm hb
    rw [processTeams_eq_stream, hdec, streamFold_append, streamFold_cons]
    have hu_notin : uid_for cfg.domain x.2 ∉ (streamFold cfg clock initState pre).seen := by
      intro hmem2
      have hsub := streamFold_seen_sub cfg clock pre initState hmem2
      rcases List.mem_append.mp hsub with h | h
      · cases h
      · exact hnm h
    have hstep : stepP cfg clock (streamFold cfg clock initState pre) x =
        ⟨uid_for cfg.domain x.2 :: (streamFold cfg clock initState pre).seen,
         (streamFold cfg clock initState pre).vevents ++ [s],
         (streamFold cfg clock initState pre).tick + 1⟩ := by
      unfold stepP procEvent
      simp only [hu_notin, if_false, hb]
    rw [hstep]
    obtain ⟨δ, hδ⟩ := streamFold_vevents_prefix cfg clock post
      ⟨uid_for cfg.domain x.2 :: (streamFold cfg clock initState pre).seen,
       (streamFold cfg clock initState pre).vevents ++ [s],
       (streamFold cfg clock initState pre).tick + 1⟩
    rw [hδ]
    simp [List.mem_append]

/-- Witness for the amended C4 at a concrete run with a duplicated uid. -/
theorem claim4_witness :
    (∃ us, us.Nodup ∧ List.Forall₂ (BlockOf cfg0 clk0) us
        (processTeams cfg0 clk0 [(t0, .ok [eOk7, eNoDate7])]).vevents) ∧
    processTeams cfg0 clk0 [(t0, .ok [eOk7, eNoDate7])] =
      streamFold cfg0 clk0 initState [(t0, eOk7)] :=
  ⟨(claim4_amended cfg0 clk0 [(t0, .ok [eOk7, eNoDate7])]).1,
   (claim4_amended cfg0 clk0 [(t0, .ok [eOk7, eNoDate7])]).2.1
     [(t0, eOk7)] (t0, eNoDate7) [] rfl (by decide)⟩

/-- C6 fails as stated: with a clock that advances between render attempts,
the two VEVENT blocks of one run carry different DTSTAMP lines. -/
theorem claim6_counterexample :
    ((processTeams cfg0 clkId [(t0, .ok [eA, eB])]).vevents.map
        (fun s => (linesOf s)[2]?)) =
      [some "DTSTAMP:19700101T000000Z", some "DTSTAMP:19700101T000001Z"] ∧
    ("DTSTAMP:19700101T000000Z" : String) ≠ "DTSTAMP:19700101T000001Z" :=
  ⟨rfl, by decide⟩

/-- C6 (amended): the current instant is captured per VEVENT, at that block's
render time; consequently all blocks of a run carry the same DTSTAMP only when
the clock is constant across the run, in which case every block's third line
is DTSTAMP followed by that constant instant. -/
theorem claim6_amended (cfg : Config) (c : Int)
    (teams : List (Team × Except String (List RawEvent))) (s : String)
    (hs : s ∈ (processTeams cfg (fun _ => c) teams).vevents) :
    ∃ ev t L, vevent_lines cfg c ev t = .ok L ∧ s = newlineJoin L ∧
      L[2]? = some ("DTSTAMP:" ++ fmtBasic c) := by
  rw [processTeams_eq_stream] at hs
  rcases streamFold_mem_vevents cfg (fun _ => c) (eventStream teams) initState s hs
    with h | h
  · cases h
  · obtain ⟨ev, t, i, hb⟩ := h
    unfold build_vevent at hb
    have hb2 : Except.map newlineJoin (vevent_lines cfg c ev t) = Except.ok s := hb
    cases hL : vevent_lines cfg c ev t with
    | error m => rw [hL] at hb2; cases hb2
    | ok L =>
      rw [hL] at hb2
      cases hb2
      exact ⟨ev, t, L, hL, rfl, vevent_lines_dtstamp cfg c ev t L hL⟩

/-- Witness for the amended C6 at a concrete constant-clock run. -/
theorem claim6_witness :
    ∃ ev t L, vevent_lines cfg0 5 ev t = .ok L ∧
      ("BEGIN:VEVENT\nUID:league-1@github.io\nDTSTAMP:19700101T000005Z\nDTSTART:19700101T000000Z\nDTEND:19700101T020000Z\nSUMMARY:E\nLOCATION:\nDESCRIPTION:\nEND:VEVENT" : String) =
        newlineJoin L ∧
      L[2]? = some ("DTSTAMP:" ++ fmtBasic 5) :=
  claim6_amended cfg0 5 [(t0, .ok [eA])] _ (by decide)

/-- C7 fails as stated: an event that passes the normalizer (make_dt succeeds)
and the identity filter (uid derivation is total) still makes the formatter
raise, because its summary expression adds None to a string. -/
theorem claim7_counterexample :
    make_dt cfg0 eSumBad = .ok ⟨0, 0⟩ ∧
    build_vevent cfg0 0 eSumBad t0 =
      .error "TypeError: can only concatenate str to str" :=
  ⟨rfl, rfl⟩

/-- C7 (amended): for an event that passes the normalizer, rendering the
VEVENT block succeeds exactly when the summary inputs suffice: the event's own
title field is truthy, or both the home and the away team name are present. -/
theorem claim7_amended (cfg : Config) (now : Int) (e : RawEvent) (t : Team)
    (dt : AwareDT) (hdt : make_dt cfg e = .ok dt) :
    (∃ L, vevent_lines cfg now e t = .ok L) ↔
      (pyTruthyS e.strEvent = true ∨ (e.strHomeTeam.isSome ∧ e.strAwayTeam.isSome)) := by
  rw [← summaryCore_ok_iff]
  unfold vevent_lines
  rw [hdt]
  simp only
  cases hs : summaryCore e with
  | error m => simp [hs]
  | ok c => simp [hs]

/-- Witness for the amended C7 at a concrete event with a title. -/
theorem claim7_witness :
    (∃ L, vevent_lines cfg0 0 eA t0 = .ok L) ↔
      (pyTruthyS eA.strEvent = true ∨ (eA.strHomeTeam.isSome ∧ eA.strAwayTeam.isSome)) :=
  claim7_amended cfg0 0 eA t0 ⟨0, 0⟩ rfl

/-- C8: an event with an absent date field fails normalization with the
missing-date error, and only that event is skipped: a team returning a valid
fixture, a dateless fixture and another valid fixture yields exactly the two
valid blocks. -/
theorem claim8_missing_date (cfg : Config) (clock : Nat → Int) (t : Team)
    (e1 e2 e3 : RawEvent) (hd : e2.dateEvent = none)
    (h12 : uid_for cfg.domain e1 ≠ uid_for cfg.domain e2)
    (h13 : uid_for cfg.domain e1 ≠ uid_for cfg.domain e3)
    (h23 : uid_for cfg.domain e2 ≠ uid_for cfg.domain e3)
    (hb1 : ∀ now, ∃ s, build_vevent cfg now e1 t = .ok s)
    (hb3 : ∀ now, ∃ s, build_vevent cfg now e3 t = .ok s) :
    make_dt cfg e2 = .error "Event missing dateEvent" ∧
    ∃ s1 s3, build_vevent cfg (clock 0) e1 t = .ok s1 ∧
      build_vevent cfg (clock 2) e3 t = .ok s3 ∧
      (processTeams cfg clock [(t, .ok [e1, e2, e3])]).vevents = [s1, s3] := by
  have hmd2 : make_dt cfg e2 = .error "Event missing dateEvent" := by
    unfold make_dt
    rw [hd]
    rfl
  obtain ⟨s1, hs1⟩ := hb1 (clock 0)
  obtain ⟨s3, hs3⟩ := hb3 (clock 2)
  have hbe2 : ∀ now, build_vevent cfg now e2 t = .error "Event missing dateEvent" := by
    intro now
    unfold build_vevent vevent_lines
    rw [hmd2]
    rfl
  refine ⟨hmd2, s1, s3, hs1, hs3, ?_⟩
  show (procEvent cfg clock t
    (procEvent cfg clock t (procEvent cfg clock t initState e1) e2) e3).vevents = [s1, s3]
  have hst1 : procEvent cfg clock t initState e1 =
      ⟨[uid_for cfg.domain e1], [s1], 1⟩ := by
    unfold procEvent initState
    simp only [List.not_mem_nil, if_false, hs1, List.nil_append]
  rw [hst1]
  have hmem2 : uid_for cfg.domain e2 ∉ ([uid_for cfg.domain e1] : List String) := by
    simp only [List.mem_singleton]
    exact fun hc => h12 hc.symm
  have hst2 : procEvent cfg clock t ⟨[uid_for cfg.domain e1], [s1], 1⟩ e2 =
      ⟨[uid_for cfg.domain e2, uid_for cfg.domain e1], [s1], 2⟩ := by
    unfold procEvent
    simp only [hmem2, if_false, hbe2 (clock 1)]
  rw [hst2]
  have hmem3 : uid_for cfg.domain e3 ∉
      ([uid_for cfg.domain e2, uid_for cfg.domain e1] : List String) := by
    intro hc
    rcases List.mem_cons.mp hc with h | h
    · exact h23 h.symm
    · rw [List.mem_singleton] at h
      exact h13 h.symm
  have hst3 : procEvent cfg clock t
      ⟨[uid_for cfg.domain e2, uid_for cfg.domain e1], [s1], 2⟩ e3 =
      ⟨[uid_for cfg.domain e3, uid_for cfg.domain e2, uid_for cfg.domain e1],
       [s1, s3], 3⟩ := by
    unfold procEvent
    simp only [hmem3, if_false, hs3]
    rfl
  rw [hst3]

/-- Witness for C8 at a concrete three-event team. -/
theorem claim8_witness :
    make_dt cfg0 eMid = .error "Event missing dateEvent" ∧
    ∃ s1 s3, build_vevent cfg0 (clk0 0) eA t0 = .ok s1 ∧
      build_vevent cfg0 (clk0 2) eB t0 = .ok s3 ∧
      (processTeams cfg0 clk0 [(t0, .ok [eA, eMid, eB])]).vevents = [s1, s3] :=
  claim8_missing_date cfg0 clk0 t0 eA eMid eB rfl (by decide) (by decide) (by decide)
    (fun now => ⟨_, rfl⟩) (fun now => ⟨_, rfl⟩)

/-- C9: a team whose fetch fails is treated as zero events: the per-team step
leaves the state unchanged, the run over the team list with the failing team
equals the run without it, and the assembled calendar document is the same. -/
theorem claim9_fetch_failure (cfg : Config) (clock : Nat → Int)
    (pre post : List (Team × Except String (List RawEvent))) (t : Team)
    (msg : String) :
    (∀ st, procTeam cfg clock st (t, .error msg) = st) ∧
    processTeams cfg clock (pre ++ (t, .error msg) :: post) =
      processTeams cfg clock (pre ++ post) ∧
    mainCalendar cfg clock (pre ++ (t, .error msg) :: post) =
      mainCalendar cfg clock (pre ++ post) := by
  have h1 : ∀ st, procTeam cfg clock st (t, .error msg) = st := fun st => rfl
  have h2 : processTeams cfg clock (pre ++ (t, .error msg) :: post) =
      processTeams cfg clock (pre ++ post) := by
    unfold processTeams
    rw [List.foldl_append, List.foldl_append, List.foldl_cons, h1]
  refine ⟨h1, h2, ?_⟩
  unfold mainCalendar
  rw [h2]

/-- C10: when the first event bearing a uid fails to render, the uid is
nevertheless marked seen, so no VEVENT for that uid ever reaches the calendar:
the final state has the uid in its seen set, and the blocks are renderings of
events whose pairwise distinct uids all differ from it. -/
theorem claim10_failed_first_render (cfg : Config) (clock : Nat → Int)
    (teams : List (Team × Except String (List RawEvent)))
    (pre post : List (Team × RawEvent)) (x : Team × RawEvent)
    (hdec : eventStream teams = pre ++ x :: post)
    (hfirst : uid_for cfg.domain x.2 ∉ pre.map (fun p => uid_for cfg.domain p.2))
    (hfail : ∀ now, ∃ msg, build_vevent cfg now x.2 x.1 = .error msg) :
    uid_for cfg.domain x.2 ∈ (processTeams cfg clock teams).seen ∧
    ∃ us, us.Nodup ∧
      List.Forall₂ (BlockOf cfg clock) us (processTeams cfg clock teams).vevents ∧
      uid_for cfg.domain x.2 ∉ us := by
  rw [processTeams_eq_stream, hdec, streamFold_append, streamFold_cons]
  have hu_notin : uid_for cfg.domain x.2 ∉ (streamFold cfg clock initState pre).seen := by
    intro hmem
    have hsub := streamFold_seen_sub cfg clock pre initState hmem
    rcases List.mem_append.mp hsub with h | h
    · cases h
    · exact hfirst h
  have hprov : Provenanced cfg clock (streamFold cfg clock initState pre) :=
    streamFold_prov cfg clock pre initState (initState_prov cfg clock)
  obtain ⟨msg, hmsg⟩ := hfail (clock (streamFold cfg clock initState pre).tick)
  have hstep : stepP cfg clock (streamFold cfg clock initState pre) x =
      ⟨uid_for cfg.domain x.2 :: (streamFold cfg clock initState pre).seen,
       (streamFold cfg clock initState pre).vevents,
       (streamFold cfg clock initState pre).tick + 1⟩ := by
    unfold stepP procEvent
    simp only [hu_notin, if_false, hmsg]
  rw [hstep]
  have havoid : AvoidState cfg clock (uid_for cfg.domain x.2)
      ⟨uid_for cfg.domain x.2 :: (streamFold cfg clock initState pre).seen,
       (streamFold cfg clock initState pre).vevents,
       (streamFold cfg clock initState pre).tick + 1⟩ := by
    obtain ⟨us, hnd, hsub, hrel⟩ := hprov
    exact ⟨List.mem_cons_self _ _, us, hnd,
      fun v hv => List.mem_cons_of_mem _ (hsub _ hv),
      fun hm => hu_notin (hsub _ hm), hrel⟩
  obtain ⟨hseen, us, hnd, hsub, hnu, hrel⟩ :=
    streamFold_avoid cfg clock (uid_for cfg.domain x.2) post _ havoid
  exact ⟨hseen, us, hnd, hrel, hnu⟩

/-- Witness for C10 at a concrete run whose first uid bearer has no date. -/
theorem claim10_witness :
    uid_for cfg0.domain eNoDate7 ∈
      (processTeams cfg0 clk0 [(t0, .ok [eNoDate7, eOk7])]).seen ∧
    ∃ us, us.Nodup ∧
      List.Forall₂ (BlockOf cfg0 clk0) us
        (processTeams cfg0 clk0 [(t0, .ok [eNoDate7, eOk7])]).vevents ∧
      uid_for cfg0.domain eNoDate7 ∉ us :=
  claim10_failed_first_render cfg0 clk0 [(t0, .ok [eNoDate7, eOk7])] []
    [(t0, eOk7)] (t0, eNoDate7) rfl (by decide) (fun now => ⟨_, rfl⟩)

end SportsCalendar
